import Mathlib

/-!
Verification of the Pong physics/simulation core.

The TypeScript sources are shallowly embedded here:
* `src/physics.ts` — the geometry/math kernel (`clamp`, `lerp`, `foldYReflect`)
  and the collision resolver (`resolvePaddleHit`).
* the main game module — the scoring and ball-step logic (`score`, `resetRound`,
  `ballStep`).

Numbers are modelled as exact rationals (for the kernel, whose claims we
evaluate concretely) and as real numbers (for the resolver and the simulation
step, which use `Math.cos` / `Math.sin` / `Math.hypot` / `Math.exp`); this is
the usual idealisation of IEEE doubles by exact arithmetic.  JavaScript's
truncating remainder `%` and `Math.round` are modelled explicitly.
-/

namespace Pong

/-! ### Definitions: shallow embedding of the source -/

/-- JavaScript's truncation toward zero, on exact rationals. -/
def ratTrunc (q : ℚ) : ℤ := if 0 ≤ q then ⌊q⌋ else ⌈q⌉

/-- JavaScript's remainder operator `v % p`: `v - p * trunc (v / p)`
(the result carries the sign of the dividend). -/
def jsMod (v p : ℚ) : ℚ := v - p * (ratTrunc (v / p) : ℚ)

/-- `clamp(v, lo, hi) = Math.max(lo, Math.min(hi, v))` from `src/physics.ts`.
Polymorphic so the same definition serves the rational kernel and the real
valued resolver. -/
def clamp {α : Type} [LinearOrder α] (v lo hi : α) : α := max lo (min hi v)

/-- `foldYReflect(y, minY, maxY)` from `src/physics.ts`: fold a y value into
`[minY, maxY]` with mirror reflections. -/
def foldYReflect (y minY maxY : ℚ) : ℚ :=
  let span := maxY - minY
  if span ≤ 0 then minY
  else
    let period := 2 * span
    let v1 := jsMod (y - minY) period
    let v2 := jsMod (v1 + period) period
    let v3 := if v2 > span then period - v2 else v2
    v3 + minY

/-- `lerp(a, b, t) = a + (b - a) * t` from `src/physics.ts`. -/
noncomputable def lerp (a b t : ℝ) : ℝ := a + (b - a) * t

/-- Paddle snapshot `{x, y, vy, w, h}` from `src/physics.ts`. -/
structure Paddle where
  x : ℝ
  y : ℝ
  vy : ℝ
  w : ℝ
  h : ℝ

/-- Ball snapshot `{x, y, vx, vy, r}` from `src/physics.ts`. -/
structure Ball where
  x : ℝ
  y : ℝ
  vx : ℝ
  vy : ℝ
  r : ℝ

/-- Result record of `resolvePaddleHit`. -/
structure HitResult where
  hit : Bool
  vx : ℝ
  vy : ℝ
  x : ℝ

/-- `Math.hypot(x, y)`, idealised. -/
noncomputable def hypot (x y : ℝ) : ℝ := Real.sqrt (x * x + y * y)

/-- The `newSpeed` line of `resolvePaddleHit`:
`Math.min(speed * speedUp, maxSpeed * dpr)` with `speed = Math.hypot(b.vx, b.vy)`. -/
noncomputable def newSpeed (b : Ball) (speedUp maxSpeed dpr : ℝ) : ℝ :=
  min (hypot b.vx b.vy * speedUp) (maxSpeed * dpr)

/-- The `impact` / `spin` / `ang` lines of `resolvePaddleHit`:
`clamp(impact * 0.75 + spin, -0.95, 0.95)` with
`impact = (b.y - (p.y + p.h * 0.5)) / (p.h * 0.5)` and
`spin = clamp((p.vy / (1150 * dpr)) * 0.55, -0.55, 0.55)`. -/
noncomputable def hitAngle (p : Paddle) (b : Ball) (dpr : ℝ) : ℝ :=
  clamp ((b.y - (p.y + p.h * 0.5)) / (p.h * 0.5) * 0.75 +
    clamp (p.vy / (1150 * dpr) * 0.55) (-0.55) 0.55) (-0.95) 0.95

/-- `resolvePaddleHit` from `src/physics.ts`.  The option bag is flattened into
positional arguments; the separating-axis test, the resolved x, the sped-up
speed, the blended angle and the outgoing velocity follow the source line by
line. -/
noncomputable def resolvePaddleHit (p : Paddle) (b : Ball) (isLeft : Bool)
    (speedUp maxSpeed dpr : ℝ) : HitResult :=
  if b.x + b.r < p.x ∨ b.x - b.r > p.x + p.w ∨
      b.y + b.r < p.y ∨ b.y - b.r > p.y + p.h then
    { hit := false, vx := b.vx, vy := b.vy, x := b.x }
  else
    { hit := true
      vx := Real.cos (hitAngle p b dpr) * newSpeed b speedUp maxSpeed dpr *
        (if isLeft then 1 else -1)
      vy := Real.sin (hitAngle p b dpr) * newSpeed b speedUp maxSpeed dpr
      x := if isLeft then p.x + p.w + b.r else p.x - b.r }

/-- Axis-aligned bounding box of the ball, as a set of points. -/
def ballBox (b : Ball) : Set (ℝ × ℝ) :=
  Set.Icc (b.x - b.r) (b.x + b.r) ×ˢ Set.Icc (b.y - b.r) (b.y + b.r)

/-- Axis-aligned rectangle of the paddle, as a set of points. -/
def paddleBox (p : Paddle) : Set (ℝ × ℝ) :=
  Set.Icc p.x (p.x + p.w) ×ˢ Set.Icc p.y (p.y + p.h)

/-- `DifficultyConfig` from the main game module. -/
structure DifficultyConfig where
  label : String
  aiMaxSpeed : ℝ
  aiReactionMs : ℝ
  aiErrorPx : ℝ
  ballSpeed : ℝ
  speedUp : ℝ

namespace Difficulty

/-- The `Easy` preset of the `Difficulty` record. -/
def Easy : DifficultyConfig := ⟨"Easy", 720, 190, 26, 820, 1.035⟩

/-- The `Normal` preset of the `Difficulty` record. -/
def Normal : DifficultyConfig := ⟨"Normal", 980, 130, 16, 900, 1.045⟩

/-- The `Hard` preset of the `Difficulty` record. -/
def Hard : DifficultyConfig := ⟨"Hard", 1250, 90, 8, 980, 1.055⟩

end Difficulty

/-- Round mode of the game state machine
(`"attract" | "serve" | "play" | "pause" | "over"`). -/
inductive Mode where
  | attract
  | serve
  | play
  | pause
  | over
deriving DecidableEq

/-- Which side scored (`"L" | "R"`). -/
inductive ScoreSide where
  | L
  | R
deriving DecidableEq

/-- Paddle object of the game module (`left` / `right`): position, vertical
velocity, cached opponent target and last reaction timestamp (the last two
are untouched by the embedded ball step; they are kept for fidelity to the
source records). -/
structure PadState where
  x : ℝ
  y : ℝ
  vy : ℝ
  targetY : Option ℝ
  lastReactAt : ℝ

/-- Ball object of the game module. -/
structure BallState where
  x : ℝ
  y : ℝ
  vx : ℝ
  vy : ℝ
  glow : ℝ

/-- World geometry (the `world` object). -/
structure WorldState where
  w : ℝ
  h : ℝ
  padW : ℝ
  padH : ℝ
  padInset : ℝ
  ballR : ℝ
  netW : ℝ
  netGap : ℝ

/-- Whole mutable game state: the `state` record's simulation fields plus the
`world`, `left`, `right` and `ball` objects.  The canvas dimensions and the
device pixel ratio come from the DOM layer; they are carried as read-only
fields and `fitCanvas` is modelled as leaving them unchanged (stable layout
between steps). -/
structure GameState where
  mode : Mode
  diff : DifficultyConfig
  scoreL : ℕ
  scoreR : ℕ
  maxScore : ℕ
  canvasW : ℝ
  canvasH : ℝ
  dpr : ℝ
  world : WorldState
  left : PadState
  right : PadState
  ball : BallState

/-- `Math.round`, idealised: floor of `x + 1/2` (halves round toward `+∞`). -/
noncomputable def jsRound (x : ℝ) : ℝ := ⌊x + 1 / 2⌋

/-- `resetRound(mode)` from the game module: recompute the world geometry from
the canvas size, re-centre paddles and ball, zero the velocities, clear the
opponent's reaction timer and set the new mode. -/
noncomputable def resetRound (mode : Mode) (st : GameState) : GameState :=
  let w : WorldState :=
    { w := st.canvasW
      h := st.canvasH
      padW := max 12 (jsRound (st.canvasW * 0.016))
      padH := max 70 (jsRound (st.canvasH * 0.20))
      padInset := max 20 (jsRound (st.canvasW * 0.04))
      ballR := max 7 (jsRound (st.canvasW * 0.010))
      netW := max 3 (jsRound (st.canvasW * 0.006))
      netGap := max 12 (jsRound (st.canvasH * 0.03)) }
  { st with
    world := w
    left := { st.left with x := w.padInset, y := (w.h - w.padH) * 0.5, vy := 0 }
    right := { st.right with
      x := w.w - w.padInset - w.padW
      y := (w.h - w.padH) * 0.5
      vy := 0
      lastReactAt := 0 }
    ball := { x := w.w * 0.5, y := w.h * 0.5, vx := 0, vy := 0, glow := 0 }
    mode := mode }

/-- `score(side)` from the game module: increment the scorer's tally; when a
tally reaches the match target go to `over` (and stop — no round reset),
otherwise reset the round into `serve` mode. -/
noncomputable def score (side : ScoreSide) (st : GameState) : GameState :=
  let st1 := match side with
    | ScoreSide.L => { st with scoreL := st.scoreL + 1 }
    | ScoreSide.R => { st with scoreR := st.scoreR + 1 }
  if st1.maxScore ≤ st1.scoreL ∨ st1.maxScore ≤ st1.scoreR then
    { st1 with mode := Mode.over }
  else
    resetRound Mode.serve st1

/-- The position-integration lines of `ballStep`:
`ball.x += ball.vx * dt; ball.y += ball.vy * dt`. -/
noncomputable def integrate (dt : ℝ) (b : BallState) : BallState :=
  { b with x := b.x + b.vx * dt, y := b.y + b.vy * dt }

/-- The two wall-bounce blocks of `ballStep`: clamp to the wall, flip the
vertical velocity away from it, light the glow. -/
noncomputable def wallBounce (h r : ℝ) (b : BallState) : BallState :=
  if b.y < r then { b with y := r, vy := |b.vy|, glow := 1 }
  else if b.y > h - r then { b with y := h - r, vy := -|b.vy|, glow := 1 }
  else b

/-- The `hitPaddle` closure inside `ballStep`: bounding-box pre-test against
the paddle rectangle, then the resolver; on a hit the ball is repositioned,
re-aimed and its glow lit. -/
noncomputable def hitPaddleStep (st : GameState) (p : PadState)
    (isLeft : Bool) : GameState :=
  if st.ball.x + st.world.ballR < p.x ∨
      st.ball.x - st.world.ballR > p.x + st.world.padW ∨
      st.ball.y + st.world.ballR < p.y ∨
      st.ball.y - st.world.ballR > p.y + st.world.padH then
    st
  else
    let res := resolvePaddleHit ⟨p.x, p.y, p.vy, st.world.padW, st.world.padH⟩
      ⟨st.ball.x, st.ball.y, st.ball.vx, st.ball.vy, st.world.ballR⟩ isLeft
      st.diff.speedUp 1780 st.dpr
    if res.hit = false then st
    else { st with ball := { st.ball with
      x := res.x
      vx := res.vx
      vy := res.vy
      glow := 1 } }

/-- The paddle-collision dispatch of `ballStep`: only the paddle on the side
the ball is moving toward is tested. -/
noncomputable def stepCollide (st : GameState) : GameState :=
  if st.ball.vx < 0 then hitPaddleStep st st.left true
  else hitPaddleStep st st.right false

/-- The scoring boundary checks of `ballStep`: past the left margin the right
side scores, past the right margin the left side scores. -/
noncomputable def stepScore (w r : ℝ) (st : GameState) : GameState :=
  if st.ball.x < -r * 2 then score ScoreSide.R st
  else if st.ball.x > w + r * 2 then score ScoreSide.L st
  else st

/-- The final glow-decay line of `ballStep`. -/
noncomputable def glowDecayStep (dt : ℝ) (st : GameState) : GameState :=
  { st with ball := { st.ball with
      glow := lerp st.ball.glow 0 (1 - Real.exp (-5 * dt)) } }

/-- `ballStep(dt)` from the game module: idle drift toward the field centre
outside `play`; in `play`, integrate the ball, bounce off the horizontal
walls, test the paddle on the side the ball moves toward, check the scoring
boundaries (reading the pre-score world width and ball radius, as the source
does), then decay the glow. -/
noncomputable def ballStep (dt : ℝ) (st : GameState) : GameState :=
  if st.mode ≠ Mode.play then
    { st with ball := { st.ball with
        x := lerp st.ball.x (st.world.w * 0.5) (1 - Real.exp (-8 * dt))
        y := lerp st.ball.y (st.world.h * 0.5) (1 - Real.exp (-8 * dt))
        glow := lerp st.ball.glow 0 (1 - Real.exp (-6 * dt)) } }
  else
    glowDecayStep dt (stepScore st.world.w st.world.ballR
      (stepCollide { st with
        ball := wallBounce st.world.h st.world.ballR (integrate dt st.ball) }))

/-- A concrete in-play state (960×540 canvas, standard geometry, Normal
difficulty, ball about to cross the right boundary) used to evaluate the
simulation step. -/
noncomputable def sampleState : GameState :=
  { mode := Mode.play
    diff := Difficulty.Normal
    scoreL := 0
    scoreR := 0
    maxScore := 11
    canvasW := 960
    canvasH := 540
    dpr := 1
    world := ⟨960, 540, 16, 108, 36, 9.5, 5, 18⟩
    left := ⟨36, 216, 0, none, 0⟩
    right := ⟨908, 216, 0, none, 0⟩
    ball := ⟨950, 270, 200, 0, 1⟩ }

/-! ### Theorems -/

lemma ratTrunc_eq_zero {q : ℚ} (h1 : -1 < q) (h2 : q < 1) : ratTrunc q = 0 := by
  unfold ratTrunc
  by_cases h : 0 ≤ q
  · rw [if_pos h]
    exact Int.floor_eq_zero_iff.mpr ⟨h, h2⟩
  · rw [if_neg h]
    push_neg at h
    refine Int.ceil_eq_zero_iff.mpr ?_
    constructor
    · linarith
    · linarith

lemma ratTrunc_eq_one {q : ℚ} (h1 : 1 ≤ q) (h2 : q < 2) : ratTrunc q = 1 := by
  unfold ratTrunc
  rw [if_pos (by linarith)]
  rw [Int.floor_eq_iff]
  constructor
  · exact_mod_cast h1
  · push_cast
    linarith

/-- On `[0, p)` the JS remainder is the identity. -/
lemma jsMod_eq_self {v p : ℚ} (hp : 0 < p) (h0 : 0 ≤ v) (h1 : v < p) :
    jsMod v p = v := by
  unfold jsMod
  have hq0 : (0 : ℚ) ≤ v / p := div_nonneg h0 hp.le
  rw [ratTrunc_eq_zero (by linarith) ((div_lt_one hp).mpr h1)]
  push_cast
  ring

/-- On `[p, 2p)` the JS remainder subtracts one period. -/
lemma jsMod_eq_sub {v p : ℚ} (hp : 0 < p) (h0 : p ≤ v) (h1 : v < 2 * p) :
    jsMod v p = v - p := by
  unfold jsMod
  have hq1 : 1 ≤ v / p := (one_le_div hp).mpr h0
  have hq2 : v / p < 2 := (div_lt_iff₀ hp).mpr (by linarith)
  rw [ratTrunc_eq_one hq1 hq2]
  push_cast
  ring

/-- On `(-p, 0)` the JS remainder is the identity (result keeps the sign of
the dividend). -/
lemma jsMod_eq_self_of_neg {v p : ℚ} (hp : 0 < p) (h0 : -p < v) (h1 : v < 0) :
    jsMod v p = v := by
  unfold jsMod
  have hq1 : (-1 : ℚ) < v / p := by
    rw [lt_div_iff₀ hp]
    linarith
  rw [ratTrunc_eq_zero hq1 (by linarith [div_neg_of_neg_of_pos h1 hp])]
  push_cast
  ring

lemma foldYReflect_of_pos {y minY maxY : ℚ} (h : 0 < maxY - minY) :
    foldYReflect y minY maxY =
      (if jsMod (jsMod (y - minY) (2 * (maxY - minY)) + 2 * (maxY - minY))
            (2 * (maxY - minY)) > maxY - minY
       then 2 * (maxY - minY) -
            jsMod (jsMod (y - minY) (2 * (maxY - minY)) + 2 * (maxY - minY))
              (2 * (maxY - minY))
       else jsMod (jsMod (y - minY) (2 * (maxY - minY)) + 2 * (maxY - minY))
              (2 * (maxY - minY))) + minY := by
  unfold foldYReflect
  rw [if_neg (not_le.mpr h)]

/-- C1: with a positive span, `foldYReflect` is the identity on `[minY, maxY]`,
sends `maxY + k` to `maxY - k` and `minY - k` to `minY + k` for every
`0 < k ≤ span`. -/
theorem foldYReflect_reflect_spec (y minY maxY k : ℚ) (hspan : 0 < maxY - minY) :
    (minY ≤ y ∧ y ≤ maxY → foldYReflect y minY maxY = y) ∧
    (0 < k ∧ k ≤ maxY - minY →
      foldYReflect (maxY + k) minY maxY = maxY - k) ∧
    (0 < k ∧ k ≤ maxY - minY →
      foldYReflect (minY - k) minY maxY = minY + k) := by
  have hper : 0 < 2 * (maxY - minY) := by linarith
  refine ⟨?_, ?_, ?_⟩
  · rintro ⟨hy1, hy2⟩
    rw [foldYReflect_of_pos hspan]
    have h1 : jsMod (y - minY) (2 * (maxY - minY)) = y - minY :=
      jsMod_eq_self hper (by linarith) (by linarith)
    rw [h1]
    have h2 : jsMod (y - minY + 2 * (maxY - minY)) (2 * (maxY - minY)) = y - minY := by
      have := jsMod_eq_sub hper (p := 2 * (maxY - minY))
        (v := y - minY + 2 * (maxY - minY)) (by linarith) (by linarith)
      linarith [this]
    rw [h2, if_neg (by push_neg; linarith)]
    ring
  · rintro ⟨hk1, hk2⟩
    rw [foldYReflect_of_pos hspan]
    rcases lt_or_eq_of_le hk2 with hk | hk
    · have h1 : jsMod (maxY + k - minY) (2 * (maxY - minY)) = maxY + k - minY :=
        jsMod_eq_self hper (by linarith) (by linarith)
      rw [h1]
      have h2 : jsMod (maxY + k - minY + 2 * (maxY - minY)) (2 * (maxY - minY)) =
          maxY + k - minY := by
        have := jsMod_eq_sub hper
          (v := maxY + k - minY + 2 * (maxY - minY)) (by linarith) (by linarith)
        linarith [this]
      rw [h2, if_pos (by linarith)]
      ring
    · have h1 : jsMod (maxY + k - minY) (2 * (maxY - minY)) = 0 := by
        have := jsMod_eq_sub hper (v := maxY + k - minY) (by linarith) (by linarith)
        linarith [this]
      rw [h1]
      have h2 : jsMod (0 + 2 * (maxY - minY)) (2 * (maxY - minY)) = 0 := by
        have := jsMod_eq_sub hper (v := 0 + 2 * (maxY - minY)) (by linarith) (by linarith)
        linarith [this]
      rw [h2, if_neg (by push_neg; linarith)]
      linarith
  · rintro ⟨hk1, hk2⟩
    rw [foldYReflect_of_pos hspan]
    have h1 : jsMod (minY - k - minY) (2 * (maxY - minY)) = minY - k - minY :=
      jsMod_eq_self_of_neg hper (by linarith) (by linarith)
    rw [h1]
    have h2 : jsMod (minY - k - minY + 2 * (maxY - minY)) (2 * (maxY - minY)) =
        minY - k - minY + 2 * (maxY - minY) :=
      jsMod_eq_self hper (by linarith) (by linarith)
    rw [h2]
    rcases lt_or_eq_of_le hk2 with hk | hk
    · rw [if_pos (by linarith)]
      ring
    · rw [if_neg (by push_neg; linarith)]
      linarith

/-- Witness for C1 at `y = 5`, `minY = 0`, `maxY = 10`, `k = 1`: the three
cases give `5`, `9` and `1` respectively. -/
theorem foldYReflect_reflect_spec_witness :
    foldYReflect 5 0 10 = 5 ∧ foldYReflect 11 0 10 = 9 ∧
      foldYReflect (-1) 0 10 = 1 := by
  obtain ⟨ha, hb, hc⟩ := foldYReflect_reflect_spec 5 0 10 1 (by norm_num)
  refine ⟨ha (by norm_num), ?_, ?_⟩
  · have := hb (by norm_num)
    norm_num at this
    exact this
  · have := hc (by norm_num)
    norm_num at this
    exact this

/-- C8: with a degenerate field (`span = maxY - minY ≤ 0`), `foldYReflect`
returns `minY` as a safe fallback, for every `y`. -/
theorem foldYReflect_degenerate (y minY maxY : ℚ) (h : maxY - minY ≤ 0) :
    foldYReflect y minY maxY = minY := by
  unfold foldYReflect
  rw [if_pos h]

/-- Witness for C8 at `y = 5`, `minY = 10`, `maxY = 3` (negative span). -/
theorem foldYReflect_degenerate_witness : foldYReflect 5 10 3 = 10 :=
  foldYReflect_degenerate 5 10 3 (by norm_num)

/-- C10: with inverted bounds (`lo > hi`), `clamp` always returns `lo`,
whatever `v` is. -/
theorem clamp_inverted_bounds (v lo hi : ℚ) (h : hi < lo) : clamp v lo hi = lo := by
  unfold clamp
  exact max_eq_left ((min_le_left hi v).trans h.le)

/-- Witness for C10 at `v = 7`, `lo = 5`, `hi = 2`. -/
theorem clamp_inverted_bounds_witness : clamp (7 : ℚ) 5 2 = 5 :=
  clamp_inverted_bounds 7 5 2 (by norm_num)

lemma hypot_nonneg (x y : ℝ) : 0 ≤ hypot x y := Real.sqrt_nonneg _

lemma resolvePaddleHit_of_sep {p : Paddle} {b : Ball} {isLeft : Bool}
    {u m d : ℝ}
    (h : b.x + b.r < p.x ∨ b.x - b.r > p.x + p.w ∨
      b.y + b.r < p.y ∨ b.y - b.r > p.y + p.h) :
    resolvePaddleHit p b isLeft u m d =
      { hit := false, vx := b.vx, vy := b.vy, x := b.x } := by
  unfold resolvePaddleHit
  rw [if_pos h]

lemma resolvePaddleHit_of_overlap {p : Paddle} {b : Ball} {isLeft : Bool}
    {u m d : ℝ}
    (h : ¬(b.x + b.r < p.x ∨ b.x - b.r > p.x + p.w ∨
      b.y + b.r < p.y ∨ b.y - b.r > p.y + p.h)) :
    resolvePaddleHit p b isLeft u m d =
      { hit := true
        vx := Real.cos (hitAngle p b d) * newSpeed b u m d *
          (if isLeft then 1 else -1)
        vy := Real.sin (hitAngle p b d) * newSpeed b u m d
        x := if isLeft then p.x + p.w + b.r else p.x - b.r } := by
  unfold resolvePaddleHit
  rw [if_neg h]

lemma hit_eq_true_iff {p : Paddle} {b : Ball} {isLeft : Bool} {u m d : ℝ} :
    (resolvePaddleHit p b isLeft u m d).hit = true ↔
      ¬(b.x + b.r < p.x ∨ b.x - b.r > p.x + p.w ∨
        b.y + b.r < p.y ∨ b.y - b.r > p.y + p.h) := by
  by_cases h : b.x + b.r < p.x ∨ b.x - b.r > p.x + p.w ∨
      b.y + b.r < p.y ∨ b.y - b.r > p.y + p.h
  · rw [resolvePaddleHit_of_sep h]
    simp [h]
  · rw [resolvePaddleHit_of_overlap h]
    simp [h]

lemma clamp_mem {α : Type} [LinearOrder α] (v lo hi : α) (h : lo ≤ hi) :
    lo ≤ clamp v lo hi ∧ clamp v lo hi ≤ hi :=
  ⟨le_max_left lo _, max_le h (min_le_left hi v)⟩

lemma hitAngle_mem (p : Paddle) (b : Ball) (d : ℝ) :
    (-0.95 : ℝ) ≤ hitAngle p b d ∧ hitAngle p b d ≤ 0.95 := by
  unfold hitAngle
  exact clamp_mem _ _ _ (by norm_num)

lemma cos_hitAngle_pos (p : Paddle) (b : Ball) (d : ℝ) :
    0 < Real.cos (hitAngle p b d) := by
  obtain ⟨hlo, hhi⟩ := hitAngle_mem p b d
  have hpi : (3 : ℝ) < Real.pi := Real.pi_gt_three
  apply Real.cos_pos_of_mem_Ioo
  constructor
  · have : -(Real.pi / 2) < (-0.95 : ℝ) := by norm_num; linarith
    linarith
  · have : (0.95 : ℝ) < Real.pi / 2 := by linarith
    linarith

/-- On a hit, the magnitude of the outgoing velocity is exactly `newSpeed`,
provided the sped-up speed and the cap are non-negative. -/
lemma outgoing_speed_eq {p : Paddle} {b : Ball} {isLeft : Bool} {u m d : ℝ}
    (hu : 0 ≤ u) (hc : 0 ≤ m * d)
    (h : ¬(b.x + b.r < p.x ∨ b.x - b.r > p.x + p.w ∨
      b.y + b.r < p.y ∨ b.y - b.r > p.y + p.h)) :
    hypot (resolvePaddleHit p b isLeft u m d).vx
        (resolvePaddleHit p b isLeft u m d).vy = newSpeed b u m d := by
  rw [resolvePaddleHit_of_overlap h]
  have hns : 0 ≤ newSpeed b u m d :=
    le_min (mul_nonneg (hypot_nonneg _ _) hu) hc
  have pyth := Real.sin_sq_add_cos_sq (hitAngle p b d)
  have he : (if isLeft then (1 : ℝ) else -1) * (if isLeft then (1 : ℝ) else -1) = 1 := by
    by_cases hl : isLeft <;> simp [hl]
  unfold hypot
  have hkey :
      Real.cos (hitAngle p b d) * newSpeed b u m d * (if isLeft then (1 : ℝ) else -1) *
          (Real.cos (hitAngle p b d) * newSpeed b u m d * (if isLeft then (1 : ℝ) else -1)) +
        Real.sin (hitAngle p b d) * newSpeed b u m d *
          (Real.sin (hitAngle p b d) * newSpeed b u m d) =
        newSpeed b u m d * newSpeed b u m d := by
    linear_combination (newSpeed b u m d * newSpeed b u m d) * pyth +
      (newSpeed b u m d * newSpeed b u m d * Real.cos (hitAngle p b d) ^ 2) * he
  rw [hkey]
  exact Real.sqrt_mul_self hns

/-- C4: if the ball's bounding box and the paddle's rectangle are disjoint
(boxes taken with non-negative radius, width and height), `resolvePaddleHit`
reports no hit and passes the ball's velocity and position through unchanged. -/
theorem resolvePaddleHit_miss_passthrough (p : Paddle) (b : Ball) (isLeft : Bool)
    (speedUp maxSpeed dpr : ℝ) (hr : 0 ≤ b.r) (hw : 0 ≤ p.w) (hh : 0 ≤ p.h)
    (hdisj : Disjoint (ballBox b) (paddleBox p)) :
    (resolvePaddleHit p b isLeft speedUp maxSpeed dpr).hit = false ∧
    (resolvePaddleHit p b isLeft speedUp maxSpeed dpr).vx = b.vx ∧
    (resolvePaddleHit p b isLeft speedUp maxSpeed dpr).vy = b.vy ∧
    (resolvePaddleHit p b isLeft speedUp maxSpeed dpr).x = b.x := by
  have hsep : b.x + b.r < p.x ∨ b.x - b.r > p.x + p.w ∨
      b.y + b.r < p.y ∨ b.y - b.r > p.y + p.h := by
    by_contra hcon
    push_neg at hcon
    obtain ⟨h1, h2, h3, h4⟩ := hcon
    have hmem1 : (max (b.x - b.r) p.x, max (b.y - b.r) p.y) ∈ ballBox b := by
      simp only [ballBox, Set.mem_prod, Set.mem_Icc]
      exact ⟨⟨le_max_left _ _, max_le (by linarith) (by linarith)⟩,
        ⟨le_max_left _ _, max_le (by linarith) (by linarith)⟩⟩
    have hmem2 : (max (b.x - b.r) p.x, max (b.y - b.r) p.y) ∈ paddleBox p := by
      simp only [paddleBox, Set.mem_prod, Set.mem_Icc]
      exact ⟨⟨le_max_right _ _, max_le (by linarith) (by linarith)⟩,
        ⟨le_max_right _ _, max_le (by linarith) (by linarith)⟩⟩
    exact Set.disjoint_left.mp hdisj hmem1 hmem2
  rw [resolvePaddleHit_of_sep hsep]
  exact ⟨rfl, rfl, rfl, rfl⟩

/-- Witness for C4: the test input from the suite — ball at `(200, 200)` far
from the left paddle at `(20, 20)`. -/
theorem resolvePaddleHit_miss_passthrough_witness :
    (resolvePaddleHit ⟨20, 20, 0, 10, 50⟩ ⟨200, 200, -100, 0, 5⟩ true
        1.05 1780 1).hit = false ∧
    (resolvePaddleHit ⟨20, 20, 0, 10, 50⟩ ⟨200, 200, -100, 0, 5⟩ true
        1.05 1780 1).vx = -100 ∧
    (resolvePaddleHit ⟨20, 20, 0, 10, 50⟩ ⟨200, 200, -100, 0, 5⟩ true
        1.05 1780 1).vy = 0 ∧
    (resolvePaddleHit ⟨20, 20, 0, 10, 50⟩ ⟨200, 200, -100, 0, 5⟩ true
        1.05 1780 1).x = 200 := by
  have hdisj : Disjoint (ballBox ⟨200, 200, -100, 0, 5⟩)
      (paddleBox ⟨20, 20, 0, 10, 50⟩) := by
    rw [Set.disjoint_left]
    intro a ha hb
    simp only [ballBox, paddleBox, Set.mem_prod, Set.mem_Icc] at ha hb
    norm_num at ha hb
    linarith [ha.1.1, hb.1.2]
  exact resolvePaddleHit_miss_passthrough ⟨20, 20, 0, 10, 50⟩
    ⟨200, 200, -100, 0, 5⟩ true 1.05 1780 1 (by norm_num) (by norm_num)
    (by norm_num) hdisj

/-- C5: on any hit, the resolved x is exactly `paddle.x + paddle.w + ball.r`
for the left paddle and `paddle.x - ball.r` for the right paddle. -/
theorem resolvePaddleHit_resolved_x (p : Paddle) (b : Ball) (isLeft : Bool)
    (speedUp maxSpeed dpr : ℝ)
    (hhit : (resolvePaddleHit p b isLeft speedUp maxSpeed dpr).hit = true) :
    (resolvePaddleHit p b isLeft speedUp maxSpeed dpr).x =
      if isLeft then p.x + p.w + b.r else p.x - b.r := by
  have hsep := hit_eq_true_iff.mp hhit
  rw [resolvePaddleHit_of_overlap hsep]

/-- Witness for C5: the left-paddle test input — paddle `{x:20, w:10}`, ball
radius `6`, resolved `x = 36`. -/
theorem resolvePaddleHit_resolved_x_witness :
    (resolvePaddleHit ⟨20, 100, 0, 10, 80⟩ ⟨29, 140, -400, 0, 6⟩ true
        1 1780 1).x = 36 := by
  have hhit : (resolvePaddleHit ⟨20, 100, 0, 10, 80⟩ ⟨29, 140, -400, 0, 6⟩ true
      1 1780 1).hit = true := by
    rw [resolvePaddleHit_of_overlap (by norm_num)]
  rw [resolvePaddleHit_resolved_x _ _ _ _ _ _ hhit]
  norm_num

/-- C9: `resolvePaddleHit` is a deterministic pure function — identical
arguments produce identical hit flag, velocity and resolved position. -/
theorem resolvePaddleHit_deterministic (p₁ p₂ : Paddle) (b₁ b₂ : Ball)
    (l₁ l₂ : Bool) (u₁ u₂ m₁ m₂ d₁ d₂ : ℝ) (hp : p₁ = p₂) (hb : b₁ = b₂)
    (hl : l₁ = l₂) (hu : u₁ = u₂) (hm : m₁ = m₂) (hd : d₁ = d₂) :
    (resolvePaddleHit p₁ b₁ l₁ u₁ m₁ d₁).hit =
      (resolvePaddleHit p₂ b₂ l₂ u₂ m₂ d₂).hit ∧
    (resolvePaddleHit p₁ b₁ l₁ u₁ m₁ d₁).vx =
      (resolvePaddleHit p₂ b₂ l₂ u₂ m₂ d₂).vx ∧
    (resolvePaddleHit p₁ b₁ l₁ u₁ m₁ d₁).vy =
      (resolvePaddleHit p₂ b₂ l₂ u₂ m₂ d₂).vy ∧
    (resolvePaddleHit p₁ b₁ l₁ u₁ m₁ d₁).x =
      (resolvePaddleHit p₂ b₂ l₂ u₂ m₂ d₂).x := by
  subst hp hb hl hu hm hd
  exact ⟨rfl, rfl, rfl, rfl⟩

/-- Witness for C9 at the left-paddle test input. -/
theorem resolvePaddleHit_deterministic_witness :
    (resolvePaddleHit ⟨20, 100, 0, 10, 80⟩ ⟨29, 140, -400, 0, 6⟩ true
        1 1780 1).hit =
      (resolvePaddleHit ⟨20, 100, 0, 10, 80⟩ ⟨29, 140, -400, 0, 6⟩ true
        1 1780 1).hit ∧
    (resolvePaddleHit ⟨20, 100, 0, 10, 80⟩ ⟨29, 140, -400, 0, 6⟩ true
        1 1780 1).vx =
      (resolvePaddleHit ⟨20, 100, 0, 10, 80⟩ ⟨29, 140, -400, 0, 6⟩ true
        1 1780 1).vx ∧
    (resolvePaddleHit ⟨20, 100, 0, 10, 80⟩ ⟨29, 140, -400, 0, 6⟩ true
        1 1780 1).vy =
      (resolvePaddleHit ⟨20, 100, 0, 10, 80⟩ ⟨29, 140, -400, 0, 6⟩ true
        1 1780 1).vy ∧
    (resolvePaddleHit ⟨20, 100, 0, 10, 80⟩ ⟨29, 140, -400, 0, 6⟩ true
        1 1780 1).x =
      (resolvePaddleHit ⟨20, 100, 0, 10, 80⟩ ⟨29, 140, -400, 0, 6⟩ true
        1 1780 1).x :=
  resolvePaddleHit_deterministic _ _ _ _ _ _ _ _ _ _ _ _
    rfl rfl rfl rfl rfl rfl

/-- C2 counterexample: with a negative cap (`maxSpeed * dpr = -1`) the hit is
reported, but the outgoing speed is `1`, not `min(oldSpeed * speedUp,
maxSpeed * dpr) = -1` — the claim fails as stated for every input. -/
theorem resolvePaddleHit_speed_counterexample :
    (resolvePaddleHit ⟨0, 0, 0, 10, 10⟩ ⟨5, 5, -3, 4, 1⟩ true 1 (-1) 1).hit
        = true ∧
    hypot (resolvePaddleHit ⟨0, 0, 0, 10, 10⟩ ⟨5, 5, -3, 4, 1⟩ true 1 (-1) 1).vx
        (resolvePaddleHit ⟨0, 0, 0, 10, 10⟩ ⟨5, 5, -3, 4, 1⟩ true 1 (-1) 1).vy ≠
      min (hypot (-3) 4 * 1) ((-1) * 1) := by
  have h5 : hypot (-3 : ℝ) 4 = 5 := by
    unfold hypot
    rw [show ((-3 : ℝ) * (-3) + 4 * 4) = 5 ^ 2 by norm_num,
      Real.sqrt_sq (by norm_num)]
  have hang : hitAngle ⟨0, 0, 0, 10, 10⟩ ⟨5, 5, -3, 4, 1⟩ 1 = 0 := by
    unfold hitAngle clamp
    norm_num
  have hns : newSpeed ⟨5, 5, -3, 4, 1⟩ 1 (-1) 1 = -1 := by
    unfold newSpeed
    show min (hypot (-3) 4 * 1) ((-1) * 1) = -1
    rw [h5]
    norm_num
  rw [resolvePaddleHit_of_overlap (by norm_num)]
  refine ⟨rfl, ?_⟩
  show hypot (Real.cos (hitAngle ⟨0, 0, 0, 10, 10⟩ ⟨5, 5, -3, 4, 1⟩ 1) *
      newSpeed ⟨5, 5, -3, 4, 1⟩ 1 (-1) 1 * (if true then 1 else -1))
    (Real.sin (hitAngle ⟨0, 0, 0, 10, 10⟩ ⟨5, 5, -3, 4, 1⟩ 1) *
      newSpeed ⟨5, 5, -3, 4, 1⟩ 1 (-1) 1) ≠ min (hypot (-3) 4 * 1) ((-1) * 1)
  rw [hang, hns, h5, Real.cos_zero, Real.sin_zero]
  have h1 : hypot ((1 : ℝ) * -1 * (if true then 1 else -1)) (0 * -1) = 1 := by
    unfold hypot
    norm_num
  rw [h1]
  norm_num

/-- C2 (amended): on any hit with non-negative `speedUp` and non-negative cap
`maxSpeed * dpr`, the outgoing speed equals
`min(oldSpeed * speedUp, maxSpeed * dpr)`; hence it never exceeds
`maxSpeed * dpr`, and below the cap it equals `oldSpeed * speedUp`. -/
theorem resolvePaddleHit_speed_cap (p : Paddle) (b : Ball) (isLeft : Bool)
    (speedUp maxSpeed dpr : ℝ) (hu : 0 ≤ speedUp) (hc : 0 ≤ maxSpeed * dpr)
    (hhit : (resolvePaddleHit p b isLeft speedUp maxSpeed dpr).hit = true) :
    hypot (resolvePaddleHit p b isLeft speedUp maxSpeed dpr).vx
        (resolvePaddleHit p b isLeft speedUp maxSpeed dpr).vy =
      min (hypot b.vx b.vy * speedUp) (maxSpeed * dpr) ∧
    hypot (resolvePaddleHit p b isLeft speedUp maxSpeed dpr).vx
        (resolvePaddleHit p b isLeft speedUp maxSpeed dpr).vy ≤
      maxSpeed * dpr ∧
    (hypot b.vx b.vy * speedUp ≤ maxSpeed * dpr →
      hypot (resolvePaddleHit p b isLeft speedUp maxSpeed dpr).vx
          (resolvePaddleHit p b isLeft speedUp maxSpeed dpr).vy =
        hypot b.vx b.vy * speedUp) := by
  have hsep := hit_eq_true_iff.mp hhit
  have hkey := @outgoing_speed_eq p b isLeft speedUp maxSpeed dpr hu hc hsep
  unfold newSpeed at hkey
  refine ⟨hkey, ?_, fun hle => hkey.trans (min_eq_left hle)⟩
  rw [hkey]
  exact min_le_right _ _

/-- Witness for the amended C2: the left-paddle test input, where the outgoing
speed equals `min(400 * 1, 1780 * 1)`. -/
theorem resolvePaddleHit_speed_cap_witness :
    hypot (resolvePaddleHit ⟨20, 100, 0, 10, 80⟩ ⟨29, 140, -400, 0, 6⟩ true
          1 1780 1).vx
        (resolvePaddleHit ⟨20, 100, 0, 10, 80⟩ ⟨29, 140, -400, 0, 6⟩ true
          1 1780 1).vy =
      min (hypot (-400) 0 * 1) (1780 * 1) := by
  have hhit : (resolvePaddleHit ⟨20, 100, 0, 10, 80⟩ ⟨29, 140, -400, 0, 6⟩ true
      1 1780 1).hit = true := by
    rw [resolvePaddleHit_of_overlap (by norm_num)]
  exact (resolvePaddleHit_speed_cap _ _ _ _ _ _ (by norm_num) (by norm_num)
    hhit).1

/-- C3 counterexample: a motionless overlapping ball (`vx = vy = 0`) yields a
hit with `vx = 0`, which is not strictly positive for the left paddle — the
claim fails as stated for every input. -/
theorem resolvePaddleHit_direction_counterexample :
    (resolvePaddleHit ⟨0, 0, 0, 10, 10⟩ ⟨5, 5, 0, 0, 1⟩ true 1 1780 1).hit
        = true ∧
    ¬(0 < (resolvePaddleHit ⟨0, 0, 0, 10, 10⟩ ⟨5, 5, 0, 0, 1⟩ true
        1 1780 1).vx) := by
  have h0 : hypot (0 : ℝ) 0 = 0 := by
    unfold hypot
    norm_num
  have hns : newSpeed ⟨5, 5, 0, 0, 1⟩ 1 1780 1 = 0 := by
    unfold newSpeed
    show min (hypot 0 0 * 1) (1780 * 1) = 0
    rw [h0]
    norm_num
  rw [resolvePaddleHit_of_overlap (by norm_num)]
  refine ⟨rfl, ?_⟩
  show ¬(0 < Real.cos (hitAngle ⟨0, 0, 0, 10, 10⟩ ⟨5, 5, 0, 0, 1⟩ 1) *
    newSpeed ⟨5, 5, 0, 0, 1⟩ 1 1780 1 * (if true then 1 else -1))
  rw [hns]
  norm_num

/-- C3 (amended): on any hit with strictly positive sped-up speed and strictly
positive cap, the outgoing `vx` is strictly positive for the left paddle and
strictly negative for the right paddle. -/
theorem resolvePaddleHit_direction (p : Paddle) (b : Ball) (isLeft : Bool)
    (speedUp maxSpeed dpr : ℝ) (h1 : 0 < hypot b.vx b.vy * speedUp)
    (h2 : 0 < maxSpeed * dpr)
    (hhit : (resolvePaddleHit p b isLeft speedUp maxSpeed dpr).hit = true) :
    (isLeft = true →
      0 < (resolvePaddleHit p b isLeft speedUp maxSpeed dpr).vx) ∧
    (isLeft = false →
      (resolvePaddleHit p b isLeft speedUp maxSpeed dpr).vx < 0) := by
  have hsep := hit_eq_true_iff.mp hhit
  have hns : 0 < newSpeed b speedUp maxSpeed dpr := lt_min h1 h2
  have hcos := cos_hitAngle_pos p b dpr
  rw [resolvePaddleHit_of_overlap hsep]
  constructor
  · intro hl
    show 0 < Real.cos (hitAngle p b dpr) * newSpeed b speedUp maxSpeed dpr *
      (if isLeft then 1 else -1)
    rw [hl, if_pos rfl, mul_one]
    exact mul_pos hcos hns
  · intro hl
    show Real.cos (hitAngle p b dpr) * newSpeed b speedUp maxSpeed dpr *
      (if isLeft then 1 else -1) < 0
    rw [hl, if_neg (by simp), mul_neg_one]
    exact neg_lt_zero.mpr (mul_pos hcos hns)

/-- Witness for the amended C3: the left-paddle test input gives `0 < vx`. -/
theorem resolvePaddleHit_direction_witness :
    0 < (resolvePaddleHit ⟨20, 100, 0, 10, 80⟩ ⟨29, 140, -400, 0, 6⟩ true
        1 1780 1).vx := by
  have hhit : (resolvePaddleHit ⟨20, 100, 0, 10, 80⟩ ⟨29, 140, -400, 0, 6⟩ true
      1 1780 1).hit = true := by
    rw [resolvePaddleHit_of_overlap (by norm_num)]
  have h1 : 0 < hypot (-400 : ℝ) 0 * 1 := by
    rw [mul_one]
    unfold hypot
    apply Real.sqrt_pos.mpr
    norm_num
  exact (resolvePaddleHit_direction ⟨20, 100, 0, 10, 80⟩ ⟨29, 140, -400, 0, 6⟩
    true 1 1780 1 h1 (by norm_num) hhit).1 rfl

/-- C6: with any of the game's difficulty presets (all have
`speedUp ≥ 1`) and the game's cap arguments (`maxSpeed = 1780`), the speed is
non-decreasing across a paddle hit as long as the incoming speed has not yet
reached the cap `1780 * dpr`. -/
theorem resolvePaddleHit_speed_monotone (d : DifficultyConfig) (p : Paddle)
    (b : Ball) (isLeft : Bool) (dpr : ℝ)
    (hd : d = Difficulty.Easy ∨ d = Difficulty.Normal ∨ d = Difficulty.Hard)
    (hcap : hypot b.vx b.vy ≤ 1780 * dpr)
    (hhit : (resolvePaddleHit p b isLeft d.speedUp 1780 dpr).hit = true) :
    hypot b.vx b.vy ≤
      hypot (resolvePaddleHit p b isLeft d.speedUp 1780 dpr).vx
        (resolvePaddleHit p b isLeft d.speedUp 1780 dpr).vy := by
  have hu : 1 ≤ d.speedUp := by
    rcases hd with h | h | h <;> subst h <;>
      norm_num [Difficulty.Easy, Difficulty.Normal, Difficulty.Hard]
  have hsep := hit_eq_true_iff.mp hhit
  have hc : (0 : ℝ) ≤ 1780 * dpr := (hypot_nonneg b.vx b.vy).trans hcap
  rw [@outgoing_speed_eq p b isLeft d.speedUp 1780 dpr (by linarith) hc hsep]
  unfold newSpeed
  refine le_min ?_ hcap
  nlinarith [hypot_nonneg b.vx b.vy]

/-- Witness for C6 at the `Normal` preset and the left-paddle test input. -/
theorem resolvePaddleHit_speed_monotone_witness :
    hypot (-400 : ℝ) 0 ≤
      hypot (resolvePaddleHit ⟨20, 100, 0, 10, 80⟩ ⟨29, 140, -400, 0, 6⟩ true
          Difficulty.Normal.speedUp 1780 1).vx
        (resolvePaddleHit ⟨20, 100, 0, 10, 80⟩ ⟨29, 140, -400, 0, 6⟩ true
          Difficulty.Normal.speedUp 1780 1).vy := by
  have hhit : (resolvePaddleHit ⟨20, 100, 0, 10, 80⟩ ⟨29, 140, -400, 0, 6⟩ true
      Difficulty.Normal.speedUp 1780 1).hit = true := by
    rw [resolvePaddleHit_of_overlap (by norm_num)]
  have hcap : hypot (-400 : ℝ) 0 ≤ 1780 * 1 := by
    have h4 : hypot (-400 : ℝ) 0 = 400 := by
      unfold hypot
      rw [show ((-400 : ℝ) * (-400) + 0 * 0) = 400 ^ 2 by norm_num,
        Real.sqrt_sq (by norm_num)]
    rw [h4]
    norm_num
  exact resolvePaddleHit_speed_monotone Difficulty.Normal ⟨20, 100, 0, 10, 80⟩
    ⟨29, 140, -400, 0, 6⟩ true 1 (Or.inr (Or.inl rfl)) hcap hhit

lemma wallBounce_x (h r : ℝ) (b : BallState) : (wallBounce h r b).x = b.x := by
  unfold wallBounce
  split_ifs <;> rfl

lemma wallBounce_vx (h r : ℝ) (b : BallState) : (wallBounce h r b).vx = b.vx := by
  unfold wallBounce
  split_ifs <;> rfl

lemma hitPaddleStep_of_sep {st : GameState} {p : PadState} {l : Bool}
    (h : st.ball.x + st.world.ballR < p.x ∨
      st.ball.x - st.world.ballR > p.x + st.world.padW ∨
      st.ball.y + st.world.ballR < p.y ∨
      st.ball.y - st.world.ballR > p.y + st.world.padH) :
    hitPaddleStep st p l = st := by
  unfold hitPaddleStep
  rw [if_pos h]

/-- Reduction of `score` at side `L`: the scorer's increment substituted into
the endgame check. -/
lemma score_L_eq (st : GameState) :
    score ScoreSide.L st =
      if st.maxScore ≤ st.scoreL + 1 ∨ st.maxScore ≤ st.scoreR then
        { st with scoreL := st.scoreL + 1, mode := Mode.over }
      else resetRound Mode.serve { st with scoreL := st.scoreL + 1 } := rfl

/-- Field bookkeeping of `glowDecayStep ∘ score L`: the left tally always
increments, the right tally is untouched, and the mode/ball outcome depends on
whether a tally reached the match target. -/
lemma glow_score_L_fields (dt : ℝ) (Y : GameState) :
    (glowDecayStep dt (score ScoreSide.L Y)).scoreL = Y.scoreL + 1 ∧
    (glowDecayStep dt (score ScoreSide.L Y)).scoreR = Y.scoreR ∧
    (Y.scoreL + 1 < Y.maxScore ∧ Y.scoreR < Y.maxScore →
      (glowDecayStep dt (score ScoreSide.L Y)).mode = Mode.serve ∧
      (glowDecayStep dt (score ScoreSide.L Y)).ball.x = Y.canvasW * 0.5) ∧
    (Y.maxScore ≤ Y.scoreL + 1 ∨ Y.maxScore ≤ Y.scoreR →
      (glowDecayStep dt (score ScoreSide.L Y)).mode = Mode.over ∧
      (glowDecayStep dt (score ScoreSide.L Y)).ball.x = Y.ball.x) := by
  rw [score_L_eq]
  by_cases hc : Y.maxScore ≤ Y.scoreL + 1 ∨ Y.maxScore ≤ Y.scoreR
  · rw [if_pos hc]
    refine ⟨rfl, rfl, ?_, fun h => ⟨rfl, rfl⟩⟩
    intro h
    exfalso
    rcases hc with h1 | h2
    · exact absurd h1 (not_le.mpr h.1)
    · exact absurd h2 (not_le.mpr h.2)
  · rw [if_neg hc]
    refine ⟨rfl, rfl, fun h => ⟨rfl, rfl⟩, ?_⟩
    intro h
    exact absurd h hc

/-- C7: in `play` mode, when the integrated ball crosses the right boundary
margin (`x > world.w + ballR * 2`) while moving rightward and clear of the
right paddle, the left score increments and the right score is unchanged;
if neither tally then reaches the match target the mode resets to `serve`
with the ball re-centred, and if a tally reaches the target the mode becomes
`over` with no round reset (the ball keeps its integrated position). -/
theorem ballStep_right_boundary_score (st : GameState) (dt : ℝ)
    (hmode : st.mode = Mode.play)
    (hw : 0 ≤ st.world.w) (hr : 0 ≤ st.world.ballR)
    (hvx : 0 ≤ st.ball.vx)
    (hcross : st.ball.x + st.ball.vx * dt > st.world.w + st.world.ballR * 2)
    (hclear : st.ball.x + st.ball.vx * dt - st.world.ballR >
      st.right.x + st.world.padW) :
    (ballStep dt st).scoreL = st.scoreL + 1 ∧
    (ballStep dt st).scoreR = st.scoreR ∧
    (st.scoreL + 1 < st.maxScore ∧ st.scoreR < st.maxScore →
      (ballStep dt st).mode = Mode.serve ∧
      (ballStep dt st).ball.x = st.canvasW * 0.5) ∧
    (st.maxScore ≤ st.scoreL + 1 ∨ st.maxScore ≤ st.scoreR →
      (ballStep dt st).mode = Mode.over ∧
      (ballStep dt st).ball.x = st.ball.x + st.ball.vx * dt) := by
  have hbx : (wallBounce st.world.h st.world.ballR (integrate dt st.ball)).x = st.ball.x + st.ball.vx * dt := by
    rw [wallBounce_x]
    rfl
  have hbvx : (wallBounce st.world.h st.world.ballR (integrate dt st.ball)).vx = st.ball.vx := by
    rw [wallBounce_vx]
    rfl
  have hstep : ballStep dt st = glowDecayStep dt (stepScore st.world.w st.world.ballR (stepCollide { st with ball := wallBounce st.world.h st.world.ballR (integrate dt st.ball) })) := by
    unfold ballStep
    rw [if_neg (by simp [hmode])]
  have hlt : ¬(({ st with ball := wallBounce st.world.h st.world.ballR (integrate dt st.ball) } : GameState).ball.vx < 0) := by
    show ¬((wallBounce st.world.h st.world.ballR (integrate dt st.ball)).vx < 0)
    rw [hbvx]
    exact not_lt.mpr hvx
  have hcol : stepCollide { st with ball := wallBounce st.world.h st.world.ballR (integrate dt st.ball) } = { st with ball := wallBounce st.world.h st.world.ballR (integrate dt st.ball) } := by
    unfold stepCollide
    rw [if_neg hlt]
    apply hitPaddleStep_of_sep
    right
    left
    show (wallBounce st.world.h st.world.ballR (integrate dt st.ball)).x - st.world.ballR > st.right.x + st.world.padW
    rw [hbx]
    exact hclear
  have hn1 : ¬(({ st with ball := wallBounce st.world.h st.world.ballR (integrate dt st.ball) } : GameState).ball.x < -st.world.ballR * 2) := by
    show ¬((wallBounce st.world.h st.world.ballR (integrate dt st.ball)).x < -st.world.ballR * 2)
    rw [hbx]
    exact not_lt.mpr (by linarith)
  have hp2 : ({ st with ball := wallBounce st.world.h st.world.ballR (integrate dt st.ball) } : GameState).ball.x > st.world.w + st.world.ballR * 2 := by
    show (wallBounce st.world.h st.world.ballR (integrate dt st.ball)).x > st.world.w + st.world.ballR * 2
    rw [hbx]
    exact hcross
  have hsc : stepScore st.world.w st.world.ballR { st with ball := wallBounce st.world.h st.world.ballR (integrate dt st.ball) } = score ScoreSide.L { st with ball := wallBounce st.world.h st.world.ballR (integrate dt st.ball) } := by
    unfold stepScore
    rw [if_neg hn1, if_pos hp2]
  rw [hstep, hcol, hsc]
  obtain ⟨g1, g2, g3, g4⟩ := glow_score_L_fields dt { st with ball := wallBounce st.world.h st.world.ballR (integrate dt st.ball) }
  exact ⟨g1, g2, fun h => g3 h, fun h => ⟨(g4 h).1, (g4 h).2.trans hbx⟩⟩

/-- Witness for C7: one step of length `1` from `sampleState` (ball at
`x = 950` moving right at `200`) crosses the right margin. -/
theorem ballStep_right_boundary_score_witness :
    (ballStep 1 sampleState).scoreL = sampleState.scoreL + 1 ∧
    (ballStep 1 sampleState).scoreR = sampleState.scoreR ∧
    (sampleState.scoreL + 1 < sampleState.maxScore ∧
        sampleState.scoreR < sampleState.maxScore →
      (ballStep 1 sampleState).mode = Mode.serve ∧
      (ballStep 1 sampleState).ball.x = sampleState.canvasW * 0.5) ∧
    (sampleState.maxScore ≤ sampleState.scoreL + 1 ∨
        sampleState.maxScore ≤ sampleState.scoreR →
      (ballStep 1 sampleState).mode = Mode.over ∧
      (ballStep 1 sampleState).ball.x =
        sampleState.ball.x + sampleState.ball.vx * 1) :=
  ballStep_right_boundary_score sampleState 1 rfl
    (by norm_num [sampleState]) (by norm_num [sampleState])
    (by norm_num [sampleState]) (by norm_num [sampleState])
    (by norm_num [sampleState])

end Pong
